import Mathlib

/-!
# Verification of the eCourts cause-list checker (`Scrape.py`)

A shallow embedding of the program's core: the two free-text matchers
`search_case_in_text_by_cnr` and `search_case_by_parts`, and the
orchestrator `main` (structured/API attempt with fallback to the
rendered/Selenium provider, followed by a single JSON save).

Text is modelled as `List Char`.  The specific regular expressions used
by the source are modelled as explicit scanning functions; the Python
character classes `\w`, `\s` and line breaks are modelled at the ASCII
level (plus the Unicode line separators Python's `splitlines` handles).
-/

set_option autoImplicit false

namespace Scrape

/-! ## Character classes -/

/-- Word characters, modelling Python's regex class `\w` (ASCII part). -/
def isWordChar (c : Char) : Bool :=
  c.isAlphanum || c == '_'

/-- Whitespace, modelling Python's regex class `\s` (ASCII part). -/
def isPySpace (c : Char) : Bool :=
  c == ' ' || c == '\t' || c == '\n' || c == '\r' || c == '\x0b' || c == '\x0c'

/-- The class `[:\s]` used by the serial-number pattern. -/
def isColonSpace (c : Char) : Bool :=
  c == ':' || isPySpace c

/-- The class `[A-Za-z0-9 ,.-]` used by the court-name pattern. -/
def isCourtNameChar (c : Char) : Bool :=
  c.isAlpha || c.isDigit || c == ' ' || c == ',' || c == '.' || c == '-'

/-- ASCII digits, the class `[0-9]`. -/
def isDigitChar (c : Char) : Bool :=
  c.isDigit

/-- Line-break characters recognised by Python's `str.splitlines`. -/
def isLineBreak (c : Char) : Bool :=
  c == '\n' || c == '\r' || c == '\x0b' || c == '\x0c' ||
  c == '\x1c' || c == '\x1d' || c == '\x1e' || c == '\x85' ||
  c == '\u2028' || c == '\u2029'

/-- Case-insensitive character comparison, modelling `re.IGNORECASE`. -/
def ciEq (a b : Char) : Bool :=
  a.toLower == b.toLower

/-! ## Substring primitives (`str.find`, `in`, slices, `join`, `strip`) -/

/-- `isPrefixChars p s`: `p` is a prefix of `s` (case-sensitive). -/
def isPrefixChars : List Char → List Char → Bool
  | [], _ => true
  | _ :: _, [] => false
  | a :: as, b :: bs => a == b && isPrefixChars as bs

/-- Case-insensitive prefix test (used by patterns compiled with
`re.IGNORECASE`, whose pieces are `re.escape`d literals). -/
def ciPrefixChars : List Char → List Char → Bool
  | [], _ => true
  | _ :: _, [] => false
  | a :: as, b :: bs => ciEq a b && ciPrefixChars as bs

/-- `str.find`: index of the first occurrence of `pat` in `s`,
`none` for Python's `-1`.  (`find` with an empty pattern returns `0`.) -/
def findSub : List Char → List Char → Option Nat
  | [], pat => if isPrefixChars pat [] then some 0 else none
  | c :: rest, pat =>
    if isPrefixChars pat (c :: rest) then some 0
    else (findSub rest pat).map (· + 1)

/-- Python's `pat in s` substring test. -/
def containsSub (s pat : List Char) : Bool :=
  (findSub s pat).isSome

/-- Python slice `xs[a:b]` for `0 ≤ a ≤ b` (clamped at the length). -/
def pySlice {α : Type} (xs : List α) (a b : Nat) : List α :=
  (xs.drop a).take (b - a)

/-- `"\n".join`. -/
def joinNL : List (List Char) → List Char
  | [] => []
  | [l] => l
  | l :: ls => l ++ '\n' :: joinNL ls

/-- Python `str.strip()`: remove leading and trailing whitespace. -/
def stripBoth (s : List Char) : List Char :=
  ((s.dropWhile isPySpace).reverse.dropWhile isPySpace).reverse

/-! ## `str.splitlines`

`rawSplitLines` cuts at every line break (treating `"\r\n"` as one
break) and always yields the final segment, so a trailing break yields a
trailing empty segment; Python's `splitlines` never yields that final
empty segment, which `splitlines` below removes. -/

def splitLinesAux : Bool → List Char → List Char → List (List Char)
  | _, acc, [] => [acc.reverse]
  | prevCR, acc, c :: rest =>
    if prevCR && c == '\n' then splitLinesAux false acc rest
    else if isLineBreak c then
      acc.reverse :: splitLinesAux (c == '\r') [] rest
    else splitLinesAux false (c :: acc) rest

/-- Cut at every line break; `prevCR` records that the previous
character was a `'\r'` that already cut, so that a following `'\n'` is
swallowed (the `"\r\n"` pair is one break). -/
def rawSplitLines (s : List Char) : List (List Char) :=
  splitLinesAux false [] s

/-- Python `str.splitlines()`. -/
def splitlines (s : List Char) : List (List Char) :=
  if (rawSplitLines s).getLast? = some [] then (rawSplitLines s).dropLast
  else rawSplitLines s

/-! ## The serial-number heuristic

Models `re.search(r'\bSerial\b[:\s]*([0-9]+)', ctx, re.IGNORECASE)`,
returning `group(1)`.  At a given position the pattern matches iff a
word boundary precedes a case-insensitive `"Serial"`, followed by a
nonempty maximal run of `[:\s]` (a zero-length run would put a digit —
a word character — right after `"Serial"`, violating the second `\b`),
followed by at least one digit; `group(1)` is the maximal digit run. -/

/-- A regex word boundary `\b` between a previous and a current
character (`none` = beyond the ends of the text). -/
def wordBoundary (prev cur : Option Char) : Bool :=
  (match prev with | none => false | some c => isWordChar c) !=
  (match cur with | none => false | some c => isWordChar c)

def serialFromPos (prev : Option Char) (s : List Char) : Option (List Char) :=
  if wordBoundary prev s.head? && ciPrefixChars ("Serial".toList) s then
    let r := s.drop 6
    let w := (r.takeWhile isColonSpace).length
    if w = 0 then none
    else
      let ds := (r.drop w).takeWhile isDigitChar
      if ds = [] then none else some ds
  else none

def scanSerial (prev : Option Char) : List Char → Option (List Char)
  | [] => none
  | c :: rest =>
    match serialFromPos prev (c :: rest) with
    | some v => some v
    | none => scanSerial (some c) rest

/-- `re.search` for the serial pattern: leftmost match's `group(1)`. -/
def extractSerial (s : List Char) : Option (List Char) :=
  scanSerial none s

/-! ## The court-name heuristic

Models `re.search(r'Court\s*[:\-]\s*([A-Za-z0-9 ,.-]+)', ctx)`
(case-sensitive), returning `group(1).strip()`.  The second `\s*` is
greedy but backtracks: since `' '` belongs both to `\s` and to the name
class, the engine first tries the full whitespace run and then gives
characters back until the name class matches. -/

def courtBacktrack (r2 : List Char) : Nat → Option (List Char)
  | 0 =>
    match r2 with
    | c :: _ => if isCourtNameChar c then some (r2.takeWhile isCourtNameChar) else none
    | [] => none
  | j + 1 =>
    match r2.drop (j + 1) with
    | c :: _ =>
      if isCourtNameChar c then some ((r2.drop (j + 1)).takeWhile isCourtNameChar)
      else courtBacktrack r2 j
    | [] => courtBacktrack r2 j

def courtGroup (r2 : List Char) : Option (List Char) :=
  courtBacktrack r2 (r2.takeWhile isPySpace).length

def courtFromPos (s : List Char) : Option (List Char) :=
  if isPrefixChars ("Court".toList) s then
    let r1 := s.drop 5
    match r1.drop (r1.takeWhile isPySpace).length with
    | d :: r2 => if d == ':' || d == '-' then courtGroup r2 else none
    | [] => none
  else none

def scanCourt : List Char → Option (List Char)
  | [] => none
  | c :: rest =>
    match courtFromPos (c :: rest) with
    | some v => some v
    | none => scanCourt rest

/-- `re.search` for the court pattern: leftmost match's
`group(1).strip()`. -/
def extractCourt (s : List Char) : Option (List Char) :=
  (scanCourt s).map stripBoth

/-! ## `search_case_in_text_by_cnr` -/

/-- The dict returned by `search_case_in_text_by_cnr`. -/
structure CnrMatch where
  context : List Char
  line_no : Nat
  serial : Option (List Char)
  court : Option (List Char)
deriving DecidableEq, Repr

/-- The `for i, ln in enumerate(lines): if cnr in ln: ...` loop — index
of the first line containing `cnr` as a substring. -/
def firstMatchLine (cnr : List Char) : List (List Char) → Option Nat
  | [] => none
  | l :: ls =>
    if containsSub l cnr then some 0
    else (firstMatchLine cnr ls).map (· + 1)

/-- `search_case_in_text_by_cnr(text, cnr)` (Scrape.py lines 164-186). -/
def search_case_in_text_by_cnr (text cnr : List Char) : Option CnrMatch :=
  if cnr = [] then none
  else if (findSub text cnr).isSome then
    let lines := splitlines text
    match firstMatchLine cnr lines with
    | some i =>
      let context := joinNL (pySlice lines (i - 3) (i + 4))
      some { context := context, line_no := i,
             serial := extractSerial context, court := extractCourt context }
    | none => none
  else none

/-! ## `search_case_by_parts`

Three patterns are tried in order (Scrape.py lines 193-197), all with
`re.IGNORECASE | re.DOTALL` and `re.escape`d query pieces:
 (a) `\b{ct}\b.*?{num}.*?{yr}`   — lazy gaps spanning lines;
 (b) `{ct}[^\n]*{num}[^\n]*{yr}` — greedy gaps within lines;
 (c) `\b{num}/{yr}\b`            — bare number/year.
Each `pat_` function returns the `(start, end)` span of the leftmost
match of the corresponding regex, or `none`. -/

/-- Leftmost position of `s` (threading the previous character for word
boundaries) at which `test` succeeds on the remaining suffix. -/
def scanFirst (test : Option Char → List Char → Bool) :
    Option Char → List Char → Option Nat
  | prev, [] => if test prev [] then some 0 else none
  | prev, c :: rest =>
    if test prev (c :: rest) then some 0
    else (scanFirst test (some c) rest).map (· + 1)

/-- Largest `d ≤ bound` with `test (s.drop d)` (greedy quantifier with
backtracking). -/
def scanLastLe (test : List Char → Bool) (s : List Char) : Nat → Option Nat
  | 0 => if test s then some 0 else none
  | d + 1 =>
    if test (s.drop (d + 1)) then some (d + 1)
    else scanLastLe test s d

/-- `\b{ct}\b` at the head of `s`: word boundaries on both sides of a
case-insensitive occurrence of `ct`. -/
def ctBoundaryTest (ct : List Char) (prev : Option Char) (s : List Char) : Bool :=
  wordBoundary prev s.head? && ciPrefixChars ct s &&
    wordBoundary ((s.take ct.length).getLast?) ((s.drop ct.length).head?)

/-- Pattern (a).  The lazy gaps are unconstrained (`DOTALL`), so the
leftmost match starts at the first boundary-delimited `ct` and takes the
earliest following `num` and then the earliest following `yr`. -/
def patA (text ct num yr : List Char) : Option (Nat × Nat) :=
  match scanFirst (ctBoundaryTest ct) none text with
  | none => none
  | some i =>
    let afterCt := text.drop (i + ct.length)
    match scanFirst (fun _ s => ciPrefixChars num s) none afterCt with
    | none => none
    | some dj =>
      let afterNum := afterCt.drop (dj + num.length)
      match scanFirst (fun _ s => ciPrefixChars yr s) none afterNum with
      | none => none
      | some dk =>
        some (i, i + ct.length + dj + num.length + dk + yr.length)

/-- `{yr}` after a greedy `[^\n]*`: the largest offset inside the
current no-newline run at which `yr` matches. -/
def yrGreedy (yr : List Char) (t : List Char) : Option Nat :=
  scanLastLe (fun u => ciPrefixChars yr u) t
    (t.takeWhile (fun c => !(c == '\n'))).length

/-- Pattern (b) anchored at the head of `s`: returns the match length.
Greedy semantics: the first `[^\n]*` takes the largest offset at which
`num` matches and the rest of the pattern can still complete, then the
second `[^\n]*` takes the largest offset at which `yr` matches. -/
def matchBAt (ct num yr s : List Char) : Option Nat :=
  if ciPrefixChars ct s then
    let a := s.drop ct.length
    match scanLastLe
        (fun t => ciPrefixChars num t && (yrGreedy yr (t.drop num.length)).isSome)
        a (a.takeWhile (fun c => !(c == '\n'))).length with
    | none => none
    | some d =>
      match yrGreedy yr ((a.drop d).drop num.length) with
      | none => none
      | some d2 => some (ct.length + d + num.length + d2 + yr.length)
  else none

/-- Pattern (b): leftmost match span. -/
def patB (text ct num yr : List Char) : Option (Nat × Nat) :=
  match scanFirst (fun _ s => (matchBAt ct num yr s).isSome) none text with
  | none => none
  | some i =>
    match matchBAt ct num yr (text.drop i) with
    | some e => some (i, i + e)
    | none => none

/-- Pattern (c): leftmost boundary-delimited `num/yr`. -/
def patC (text num yr : List Char) : Option (Nat × Nat) :=
  let pat := num ++ '/' :: yr
  match scanFirst (ctBoundaryTest pat) none text with
  | none => none
  | some i => some (i, i + pat.length)

/-- The dict returned by `search_case_by_parts`. -/
structure PartsMatch where
  context : List Char
  serial : Option (List Char)
deriving DecidableEq, Repr

/-- The 200-characters-before/200-after context window and serial
extraction around a match span (Scrape.py lines 201-206). -/
def mkPartsMatch (text : List Char) (s e : Nat) : PartsMatch :=
  let ctx := pySlice text (s - 200) (e + 200)
  { context := ctx, serial := extractSerial ctx }

/-- `search_case_by_parts(text, case_type, number, year)`
(Scrape.py lines 188-208). -/
def search_case_by_parts (text ct num yr : List Char) : Option PartsMatch :=
  if ct = [] ∨ num = [] ∨ yr = [] then none
  else
    match patA text ct num yr with
    | some (s, e) => some (mkPartsMatch text s e)
    | none =>
      match patB text ct num yr with
      | some (s, e) => some (mkPartsMatch text s e)
      | none =>
        match patC text num yr with
        | some (s, e) => some (mkPartsMatch text s e)
        | none => none

/-! ## The orchestrator (`main`, Scrape.py lines 211-324)

CLI parsing and real-world effects (clock, network, browser, console)
are abstracted into an `Env`: the post-`argparse`/`strip` query, the
chosen date string, whether `--api` was passed, the value of the
`ECOURTS_API_KEY` environment variable, the combined outcome of the API
call plus `json.dumps` serialization, the text the Selenium page yields,
and the data of the `Page.printToPDF` call.  With those inputs fixed,
`main` is a pure function assembling and saving the `output` dict. -/

/-- The `query` dict built at lines 237-244: `{'cnr': s}` when
`args.cnr` is truthy, `{'case_type': t, 'case_number': n,
'case_year': y}` when `args.case` is given, and the empty dict when
`--cnr` was passed an all-whitespace/empty string (falsy). -/
inductive Query where
  | qcnr (s : List Char)
  | qparts (t n y : List Char)
  | qempty
deriving DecidableEq, Repr

/-- A member of `output['matches']`: either dict shape. -/
inductive MatchResult where
  | cnrM (m : CnrMatch)
  | partsM (m : PartsMatch)
deriving DecidableEq, Repr

/-- The `output` dict initialised at lines 246-253 and persisted at
line 323 (the spec's CheckOutcome). -/
structure Outcome where
  query : Query
  checkedDate : List Char
  method : Option (List Char)
  found : Bool
  matches' : List MatchResult
  notes : List (List Char)
  apiResponseSample : Option (List Char)
  causeListPdf : Option (List Char)
deriving DecidableEq, Repr

deriving instance DecidableEq for Except

/-- The abstracted run environment.  `apiKey` is `os.getenv`'s value
(`none` = unset); `apiResult` is the outcome of
`api_get_cause_list_by_params` followed by `json.dumps` (`error e` = any
exception, carrying its rendering; `ok blob` = the serialized text);
`pdfData` is the `data` of `Page.printToPDF` (`none` = the CDP call
raised). -/
structure Env where
  query : Query
  dateIso : List Char
  apiRequested : Bool
  apiKey : Option (List Char)
  apiResult : Except (List Char) (List Char)
  seleniumText : List Char
  downloadPdf : Bool
  pdfData : Option (List Char)
  outPath : List Char
deriving DecidableEq, Repr

def methodApi : List Char := "api".toList

def methodSelenium : List Char := "selenium_interactive".toList

def noteKeyMissing : List Char :=
  "API mode requested but ECOURTS_API_KEY not set.".toList

def noteApiError (e : List Char) : List Char := "API error: ".toList ++ e

def noteNotFound : List Char :=
  "Case not found in the displayed cause list content.".toList

/-- Rendering of the `KeyError('case_type')` raised at line 274 when the
query dict has neither key (empty `--cnr`), caught by the `except`. -/
def keyErrorCaseType : List Char := "'case_type'".toList

/-- `f"cause_list_{date_iso}.pdf"` (line 316). -/
def pdfPath (d : List Char) : List Char :=
  "cause_list_".toList ++ d ++ ".pdf".toList

/-- Python truthiness test `if not api_key` on `os.getenv`'s value. -/
def keyFalsy : Option (List Char) → Bool
  | none => true
  | some s => s.isEmpty

/-- Lines 271-274: choose the matcher from the query dict.  Accessing
`query['case_type']` on an empty query dict raises `KeyError`. -/
def apiMatch (q : Query) (blob : List Char) :
    Except (List Char) (Option MatchResult) :=
  match q with
  | .qcnr s => .ok ((search_case_in_text_by_cnr blob s).map .cnrM)
  | .qparts t n y => .ok ((search_case_by_parts blob t n y).map .partsM)
  | .qempty => .error keyErrorCaseType

/-- Lines 298-301: same choice, but via `query.get(...)`, so missing
keys become `None` (modelled `[]`, equally falsy) and nothing raises. -/
def selMatch (q : Query) (text : List Char) : Option MatchResult :=
  match q with
  | .qcnr s => (search_case_in_text_by_cnr text s).map .cnrM
  | .qparts t n y => (search_case_by_parts text t n y).map .partsM
  | .qempty => (search_case_by_parts text [] [] []).map .partsM

/-- The dict returned by `selenium_fetch_cause_list_interactive`
(`raw_html` omitted — never read by `main`). -/
structure SelResult where
  rawText : List Char
  pdfB64 : Option (List Char)
deriving DecidableEq, Repr

/-- `selenium_fetch_cause_list_interactive` (lines 92-161) with the
browser abstracted: the extracted page text comes from the environment;
the `cause_list_pdf_b64` key is set only when `--causelist` was given
and `Page.printToPDF` neither raised (the `except` at line 157 only
prints) nor returned falsy data (line 153). -/
def selenium_fetch_cause_list_interactive (env : Env) : SelResult :=
  { rawText := env.seleniumText
    pdfB64 :=
      if env.downloadPdf then
        match env.pdfData with
        | some d => if d.isEmpty then none else some d
        | none => none
      else none }

/-- The `output` dict as initialised at lines 246-253. -/
def initOutcome (env : Env) : Outcome :=
  { query := env.query, checkedDate := env.dateIso, method := none,
    found := false, matches' := [], notes := [],
    apiResponseSample := none, causeListPdf := none }

/-- Lines 256-283: the structured (API) attempt.  The `try` block
covers the call, serialization, matcher choice and the result updates;
any exception there becomes an `"API error: ..."` note. -/
def structuredPhase (env : Env) (o : Outcome) : Outcome :=
  if env.apiRequested then
    if keyFalsy env.apiKey then
      { o with notes := o.notes ++ [noteKeyMissing] }
    else
      let o1 := { o with method := some methodApi }
      match env.apiResult with
      | .error e => { o1 with notes := o1.notes ++ [noteApiError e] }
      | .ok blob =>
        match apiMatch env.query blob with
        | .error e => { o1 with notes := o1.notes ++ [noteApiError e] }
        | .ok (some m) =>
          { o1 with found := true, matches' := o1.matches' ++ [m],
                    apiResponseSample := some blob }
        | .ok none =>
          { o1 with found := false, apiResponseSample := some blob }
  else o

/-- Lines 286-320: the rendered (Selenium) fallback, run only when
`found` is still falsy.  Returns the updated outcome and whether the
provider was invoked. -/
def renderedPhase (env : Env) (o : Outcome) : Outcome × Bool :=
  if o.found then (o, false)
  else
    let o1 := { o with method := some (o.method.getD methodSelenium) }
    let sres := selenium_fetch_cause_list_interactive env
    let o2 :=
      match selMatch env.query sres.rawText with
      | some m => { o1 with found := true, matches' := o1.matches' ++ [m] }
      | none => { o1 with notes := o1.notes ++ [noteNotFound] }
    let o3 :=
      match sres.pdfB64 with
      | some _ => { o2 with causeListPdf := some (pdfPath env.dateIso) }
      | none => o2
    (o3, true)

/-- The result of one `main` run: the final outcome, whether the
Selenium provider was invoked, and the sequence of `save_json` calls
(path, document) the run performs. -/
structure RunResult where
  output : Outcome
  renderedInvoked : Bool
  saves : List (List Char × Outcome)
deriving DecidableEq, Repr

/-- `main` (lines 211-324): structured attempt, conditional rendered
fallback, then the single `save_json(output, args.out)` at line 323. -/
def main (env : Env) : RunResult :=
  let o0 := initOutcome env
  let o1 := structuredPhase env o0
  let p := renderedPhase env o1
  { output := p.1, renderedInvoked := p.2, saves := [(env.outPath, p.1)] }

/-- `--api` was requested and a (truthy) key is configured: exactly the
condition under which line 262 sets `method = 'api'` and the API call is
attempted. -/
def apiAttempted (env : Env) : Bool :=
  env.apiRequested && !(keyFalsy env.apiKey)

/-! ## Concrete scenario inputs used by witnesses and counterexamples -/

/-- The spec's scenario 8 text: the case appears only as a bare
`number/year` token. -/
def tCScenario : List Char := "case 123/2023 listed".toList

/-- A text where pattern (a) and pattern (c) both match, at spans far
enough apart that the two 200-character context windows differ. -/
def tACScenario : List Char :=
  "CC 123 2023".toList ++ List.replicate 300 ' ' ++ "123/2023".toList

/-- The C6 scenario: API requested with a key configured, the API
content does not match, the Selenium text does. -/
def envC6 : Env :=
  { query := .qcnr "MHAU012345662020".toList,
    dateIso := "2025-01-01".toList,
    apiRequested := true,
    apiKey := some "key".toList,
    apiResult := .ok "serialized api payload without the case".toList,
    seleniumText := "Item 4 MHAU012345662020 Serial: 7".toList,
    downloadPdf := false,
    pdfData := none,
    outPath := "ecourts_result.json".toList }

/-- The C7 scenario: document capture requested, `Page.printToPDF`
raises, the Selenium text contains the case. -/
def envC7 : Env :=
  { query := .qcnr "MHAU012345662020".toList,
    dateIso := "2025-01-01".toList,
    apiRequested := false,
    apiKey := none,
    apiResult := .error "unused".toList,
    seleniumText := "Item 4 MHAU012345662020 Serial: 7".toList,
    downloadPdf := true,
    pdfData := none,
    outPath := "ecourts_result.json".toList }


/-! ## Substring lemmas -/

/-- `p` occurs contiguously inside `s`. -/
def InfixOf (p s : List Char) : Prop :=
  ∃ l r, s = l ++ p ++ r

theorem infixOf_cons {p s : List Char} (c : Char) (h : InfixOf p s) :
    InfixOf p (c :: s) := by
  obtain ⟨l, r, rfl⟩ := h
  exact ⟨c :: l, r, rfl⟩

theorem infixOf_append_left {p s : List Char} (t : List Char)
    (h : InfixOf p s) : InfixOf p (t ++ s) := by
  obtain ⟨l, r, rfl⟩ := h
  exact ⟨t ++ l, r, by simp⟩

theorem infixOf_trans {a b c : List Char} (hab : InfixOf a b)
    (hbc : InfixOf b c) : InfixOf a c := by
  obtain ⟨l1, r1, rfl⟩ := hab
  obtain ⟨l2, r2, rfl⟩ := hbc
  exact ⟨l2 ++ l1, r1 ++ r2, by simp⟩

theorem isPrefixChars_iff (p s : List Char) :
    isPrefixChars p s = true ↔ ∃ r, s = p ++ r := by
  induction p generalizing s with
  | nil => simp [isPrefixChars]
  | cons a as ih =>
    cases s with
    | nil =>
      simp only [isPrefixChars, List.cons_append]
      constructor
      · intro h; cases h
      · rintro ⟨r, h⟩; cases h
    | cons b bs =>
      simp only [isPrefixChars, Bool.and_eq_true, beq_iff_eq, ih,
        List.cons_append, List.cons.injEq]
      constructor
      · rintro ⟨rfl, r, rfl⟩; exact ⟨r, rfl, rfl⟩
      · rintro ⟨r, rfl, rfl⟩; exact ⟨rfl, r, rfl⟩

theorem findSub_isSome_iff (s p : List Char) :
    (findSub s p).isSome = true ↔ InfixOf p s := by
  induction s with
  | nil =>
    constructor
    · intro h
      unfold findSub at h
      split at h
      · next hpre =>
          obtain ⟨r, hr⟩ := (isPrefixChars_iff _ _).mp hpre
          exact ⟨[], r, by simpa using hr⟩
      · simp at h
    · rintro ⟨l, r, hlr⟩
      obtain ⟨h1, h2⟩ := List.append_eq_nil.mp hlr.symm
      obtain ⟨h3, h4⟩ := List.append_eq_nil.mp h1
      subst h3; subst h4; subst h2
      decide
  | cons c rest ih =>
    constructor
    · intro h
      unfold findSub at h
      split at h
      · next hpre =>
          obtain ⟨r, hr⟩ := (isPrefixChars_iff _ _).mp hpre
          exact ⟨[], r, by simpa using hr⟩
      · next =>
          rw [Option.isSome_map'] at h
          obtain ⟨l, r, hlr⟩ := ih.mp h
          exact ⟨c :: l, r, by simp [hlr]⟩
    · rintro ⟨l, r, hlr⟩
      unfold findSub
      split
      · simp
      · next hpre =>
          rw [Option.isSome_map']
          apply ih.mpr
          cases l with
          | nil =>
            exact absurd ((isPrefixChars_iff _ _).mpr ⟨r, by simpa using hlr⟩) hpre
          | cons a l' =>
            simp only [List.cons_append, List.cons.injEq] at hlr
            exact ⟨l', r, hlr.2⟩

theorem containsSub_iff (s p : List Char) :
    containsSub s p = true ↔ InfixOf p s :=
  findSub_isSome_iff s p

/-! ## `splitlines` produces pieces of the text -/

theorem splitLinesAux_ne_nil (s : List Char) :
    ∀ (prevCR : Bool) (acc : List Char), splitLinesAux prevCR acc s ≠ [] := by
  induction s with
  | nil => intro prevCR acc; simp [splitLinesAux]
  | cons c rest ih =>
    intro prevCR acc
    simp only [splitLinesAux]
    split
    · exact ih _ _
    · split
      · simp
      · exact ih _ _

theorem splitLinesAux_mem_infixOf (s : List Char) :
    ∀ (prevCR : Bool) (acc : List Char), (prevCR = true → acc = []) →
      ∀ l ∈ splitLinesAux prevCR acc s, InfixOf l (acc.reverse ++ s) := by
  induction s with
  | nil =>
    intro prevCR acc hinv l hl
    simp only [splitLinesAux, List.mem_singleton] at hl
    subst hl
    exact ⟨[], [], by simp⟩
  | cons c rest ih =>
    intro prevCR acc hinv l hl
    simp only [splitLinesAux] at hl
    split at hl
    · next hcr =>
        have hacc : acc = [] := hinv (Bool.and_eq_true_iff.mp hcr).1
        subst hacc
        have h2 := ih false [] (by simp) l hl
        exact infixOf_cons c (by simpa using h2)
    · split at hl
      · next hbr =>
          rcases List.mem_cons.mp hl with rfl | hl
          · exact ⟨[], c :: rest, by simp⟩
          · have h2 := ih (c == '\r') [] (by simp) l hl
            exact infixOf_append_left _ (infixOf_cons c (by simpa using h2))
      · next hbr =>
          have h2 := ih false (c :: acc) (by simp) l hl
          have heq : (c :: acc).reverse ++ rest = acc.reverse ++ c :: rest := by
            simp
          rw [heq] at h2
          exact h2

theorem rawSplitLines_ne_nil (s : List Char) : rawSplitLines s ≠ [] :=
  splitLinesAux_ne_nil s false []

theorem rawSplitLines_mem_infixOf (s : List Char) :
    ∀ l ∈ rawSplitLines s, InfixOf l s := by
  intro l hl
  have h2 := splitLinesAux_mem_infixOf s false [] (by simp) l hl
  simpa using h2

theorem splitlines_mem_infixOf (s : List Char) :
    ∀ l ∈ splitlines s, InfixOf l s := by
  intro l hl
  apply rawSplitLines_mem_infixOf s
  unfold splitlines at hl
  split at hl
  · exact (List.dropLast_sublist _).subset hl
  · exact hl

/-! ## `joinNL`, `pySlice`, `firstMatchLine` -/

theorem joinNL_mem_infixOf (ls : List (List Char)) (l : List Char)
    (h : l ∈ ls) : InfixOf l (joinNL ls) := by
  induction ls with
  | nil => cases h
  | cons x tl ih =>
    cases tl with
    | nil =>
      simp only [List.mem_singleton] at h
      exact ⟨[], [], by simp [h, joinNL]⟩
    | cons y tl' =>
      simp only [List.mem_cons] at h
      rcases h with rfl | h
      · exact ⟨[], '\n' :: joinNL (y :: tl'), by simp [joinNL]⟩
      · have := ih (by simpa using h)
        show InfixOf l (x ++ '\n' :: joinNL (y :: tl'))
        obtain ⟨a, b, hab⟩ := this
        exact ⟨x ++ '\n' :: a, b, by simp [hab]⟩

theorem get_mem_pySlice {α : Type} (xs : List α) (a b i : Nat)
    (hi : i < xs.length) (ha : a ≤ i) (hb : i < b) :
    xs.get ⟨i, hi⟩ ∈ pySlice xs a b := by
  have hlen2 : i - a < (pySlice xs a b).length := by
    unfold pySlice
    rw [List.length_take, List.length_drop]
    omega
  have hval : (pySlice xs a b).get ⟨i - a, hlen2⟩ = xs.get ⟨i, hi⟩ := by
    unfold pySlice
    simp only [List.get_eq_getElem, List.getElem_take, List.getElem_drop]
    congr 1
    omega
  rw [← hval]
  exact List.get_mem _ _ _

theorem firstMatchLine_eq_some (cnr : List Char) (ls : List (List Char))
    (i : Nat) (hi : i < ls.length)
    (hc : containsSub (ls.get ⟨i, hi⟩) cnr = true)
    (hfirst : ∀ j (hj : j < i),
      containsSub (ls.get ⟨j, Nat.lt_trans hj hi⟩) cnr = false) :
    firstMatchLine cnr ls = some i := by
  induction ls generalizing i with
  | nil => cases hi
  | cons l tl ih =>
    cases i with
    | zero =>
      simp only [List.get] at hc
      simp [firstMatchLine, hc]
    | succ i' =>
      have h0 : containsSub l cnr = false := hfirst 0 (Nat.succ_pos i')
      have hi' : i' < tl.length := Nat.lt_of_succ_lt_succ hi
      have := ih i' hi' hc (fun j hj => hfirst (j + 1) (Nat.succ_lt_succ hj))
      simp [firstMatchLine, h0, this]

theorem firstMatchLine_isSome_iff (cnr : List Char) (ls : List (List Char)) :
    (firstMatchLine cnr ls).isSome = true ↔
      ∃ l ∈ ls, containsSub l cnr = true := by
  induction ls with
  | nil => simp [firstMatchLine]
  | cons l tl ih =>
    by_cases h : containsSub l cnr = true
    · simp [firstMatchLine, h]
    · simp only [firstMatchLine, if_neg h, Option.isSome_map', ih,
        List.mem_cons]
      constructor
      · rintro ⟨x, hx, hc⟩; exact ⟨x, Or.inr hx, hc⟩
      · rintro ⟨x, hx | hx, hc⟩
        · subst hx; exact absurd hc h
        · exact ⟨x, hx, hc⟩

/-! ## Orchestrator lemmas -/

theorem structuredPhase_inv (env : Env) (o : Outcome)
    (hf : o.found = false) (hm : o.matches' = []) :
    ((structuredPhase env o).found = true ↔
      (structuredPhase env o).matches' ≠ []) := by
  simp only [structuredPhase]
  split
  · split
    · simp [hf, hm]
    · split
      · simp [hf, hm]
      · split <;> simp [hf, hm]
  · simp [hf, hm]

theorem renderedPhase_inv (env : Env) (o : Outcome)
    (h : o.found = true ↔ o.matches' ≠ []) :
    ((renderedPhase env o).1.found = true ↔
      (renderedPhase env o).1.matches' ≠ []) := by
  simp only [renderedPhase]
  split
  · exact h
  · next hnf =>
      have hf : o.found = false := by simpa using hnf
      have hm : o.matches' = [] := by
        by_contra hc
        exact hnf (h.mpr hc)
      split <;> split <;> simp [hm, hf]

theorem renderedPhase_invoked (env : Env) (o : Outcome) :
    (renderedPhase env o).2 = !o.found := by
  simp only [renderedPhase]
  split
  · next hfd => simp [hfd]
  · next hnf => simp [Bool.not_eq_true] at hnf; simp [hnf]

theorem renderedPhase_method (env : Env) (o : Outcome) :
    (renderedPhase env o).1.method =
      if o.found then o.method else some (o.method.getD methodSelenium) := by
  simp only [renderedPhase]
  split
  · next hfd => simp [hfd]
  · next hnf =>
      simp only [Bool.not_eq_true] at hnf
      split <;> split <;> simp [hnf]

theorem structuredPhase_method (env : Env) (o : Outcome) :
    (structuredPhase env o).method =
      if apiAttempted env then some methodApi else o.method := by
  simp only [structuredPhase, apiAttempted]
  by_cases hreq : env.apiRequested = true
  · by_cases hkey : keyFalsy env.apiKey = true
    · simp [hreq, hkey]
    · have hkey' : keyFalsy env.apiKey = false := by simpa using hkey
      simp only [hreq, hkey', Bool.not_false, Bool.and_true, if_true,
        Bool.true_and, if_false, Bool.false_eq_true, reduceIte]
      split <;> (try split) <;> simp
  · have hreq' : env.apiRequested = false := by simpa using hreq
    simp [hreq']

theorem structuredPhase_found_no_attempt (env : Env) (o : Outcome)
    (h : apiAttempted env = false) :
    (structuredPhase env o).found = o.found := by
  simp only [structuredPhase, apiAttempted] at *
  by_cases hreq : env.apiRequested = true
  · rw [hreq] at h
    have hk : keyFalsy env.apiKey = true := by
      by_contra hc
      have : keyFalsy env.apiKey = false := by simpa using hc
      simp [this] at h
    simp [hreq, hk]
  · have hreq' : env.apiRequested = false := by simpa using hreq
    simp [hreq']

theorem structuredPhase_found_iff_match (env : Env) (o : Outcome)
    (hf : o.found = false) :
    ((structuredPhase env o).found = true ↔
      apiAttempted env = true ∧
        ∃ blob m, env.apiResult = .ok blob ∧
          apiMatch env.query blob = .ok (some m)) := by
  by_cases hreq : env.apiRequested = true
  · by_cases hkey : keyFalsy env.apiKey = true
    · simp [structuredPhase, apiAttempted, hreq, hkey, hf]
    · have hkey2 : keyFalsy env.apiKey = false := by simpa using hkey
      rcases henv : env.apiResult with e | blob
      · simp [structuredPhase, apiAttempted, hreq, hkey2, henv, hf]
      · rcases hm : apiMatch env.query blob with e | om
        · simp [structuredPhase, apiAttempted, hreq, hkey2, henv, hm, hf]
        · rcases om with _ | m
          · simp [structuredPhase, apiAttempted, hreq, hkey2, henv, hm, hf]
          · simp [structuredPhase, apiAttempted, hreq, hkey2, henv, hm]
  · have hreq2 : env.apiRequested = false := by simpa using hreq
    simp [structuredPhase, apiAttempted, hreq2, hf]

/-! ## Claim theorems -/

/-- C1: for every orchestrator run, the persisted outcome satisfies
`found = true` iff the `matches` sequence is non-empty. -/
theorem outcome_found_iff_matches_nonempty (env : Env) :
    ((main env).output.found = true ↔ (main env).output.matches' ≠ []) :=
  renderedPhase_inv env (structuredPhase env (initOutcome env))
    (structuredPhase_inv env (initOutcome env) rfl rfl)

/-- C2: the rendered (Selenium) provider is invoked exactly when `found`
is still false after the structured attempt, and the structured attempt
leaves `found = true` exactly when the API was requested with a key
configured, the call succeeded, and the matcher found the case in the
returned content — so a structured match short-circuits the rendered
provider, and anything else falls through to it. -/
theorem structured_match_short_circuits_rendered (env : Env) :
    (main env).renderedInvoked = !(structuredPhase env (initOutcome env)).found ∧
    ((structuredPhase env (initOutcome env)).found = true ↔
      apiAttempted env = true ∧
        ∃ blob m, env.apiResult = .ok blob ∧
          apiMatch env.query blob = .ok (some m)) :=
  ⟨renderedPhase_invoked env _, structuredPhase_found_iff_match env _ rfl⟩

/-- C3: `search_case_in_text_by_cnr` returns absent for any non-empty
CNR that is not a substring of the text; and when line `i` is the only
(hence first) line containing the CNR, it returns a match whose
`line_no` is `i` and whose `context` is lines `max(0, i-3)` through
`i+3` joined with newlines, a block that contains line `i`. -/
theorem cnr_matcher_spec :
    (∀ text cnr : List Char, cnr ≠ [] → containsSub text cnr = false →
      search_case_in_text_by_cnr text cnr = none) ∧
    (∀ (text cnr : List Char) (i : Nat) (hi : i < (splitlines text).length),
      cnr ≠ [] →
      containsSub ((splitlines text).get ⟨i, hi⟩) cnr = true →
      (∀ j (hj : j < i),
        containsSub ((splitlines text).get ⟨j, Nat.lt_trans hj hi⟩) cnr = false) →
      ∃ m, search_case_in_text_by_cnr text cnr = some m ∧ m.line_no = i ∧
        m.context = joinNL (pySlice (splitlines text) (i - 3) (i + 4)) ∧
        containsSub m.context ((splitlines text).get ⟨i, hi⟩) = true) := by
  constructor
  · intro text cnr hne hcon
    unfold search_case_in_text_by_cnr
    rw [if_neg hne]
    rw [containsSub] at hcon
    simp [hcon]
  · intro text cnr i hi hne hc hfirst
    have hinfix : InfixOf cnr ((splitlines text).get ⟨i, hi⟩) :=
      (containsSub_iff _ _).mp hc
    have hlinfix : InfixOf ((splitlines text).get ⟨i, hi⟩) text :=
      splitlines_mem_infixOf text _ (List.get_mem _ _ _)
    have hsome : (findSub text cnr).isSome = true :=
      (findSub_isSome_iff text cnr).mpr (infixOf_trans hinfix hlinfix)
    have hfml : firstMatchLine cnr (splitlines text) = some i :=
      firstMatchLine_eq_some cnr _ i hi hc hfirst
    refine ⟨{ context := joinNL (pySlice (splitlines text) (i - 3) (i + 4)),
              line_no := i,
              serial := extractSerial
                (joinNL (pySlice (splitlines text) (i - 3) (i + 4))),
              court := extractCourt
                (joinNL (pySlice (splitlines text) (i - 3) (i + 4))) },
            ?_, rfl, rfl, ?_⟩
    · unfold search_case_in_text_by_cnr
      rw [if_neg hne, if_pos hsome]
      simp only [hfml]
    · exact (containsSub_iff _ _).mpr
        (joinNL_mem_infixOf _ _
          (get_mem_pySlice _ (i - 3) (i + 4) i hi (by omega) (by omega)))

/-- C3 witness: a concrete text holding the CNR exactly once (on line 1)
and a concrete text not holding it. -/
theorem cnr_matcher_spec_witness :
    (search_case_in_text_by_cnr "abc\ndef".toList "XY".toList = none) ∧
    ("CNR9".toList ≠ ([] : List Char)) ∧
    containsSub ((splitlines "head\nrow CNR9 x\ntail".toList).get
      ⟨1, by decide⟩) "CNR9".toList = true ∧
    (∃ m, search_case_in_text_by_cnr "head\nrow CNR9 x\ntail".toList
        "CNR9".toList = some m ∧ m.line_no = 1 ∧
      m.context = joinNL (pySlice (splitlines "head\nrow CNR9 x\ntail".toList)
        (1 - 3) (1 + 4)) ∧
      containsSub m.context ((splitlines "head\nrow CNR9 x\ntail".toList).get
        ⟨1, by decide⟩) = true) := by
  refine ⟨cnr_matcher_spec.1 _ _ (by decide) (by decide), by decide, by decide, ?_⟩
  exact cnr_matcher_spec.2 "head\nrow CNR9 x\ntail".toList "CNR9".toList 1
    (by decide) (by decide) (by decide)
    (fun j hj => by
      have hj0 : j = 0 := by omega
      subst hj0
      exact (by decide :
        containsSub ((splitlines "head\nrow CNR9 x\ntail".toList).get
          ⟨0, by decide⟩) "CNR9".toList = false))

/-- C4: `search_case_by_parts` tries the three patterns in order against
the whole text and the first one that hits fixes the match span: a
pattern-(a) hit always yields the 200-before/200-after window around the
(a) span (even when (c) also matches elsewhere), and when (a) and (b)
miss, a pattern-(c) hit still yields a result. -/
theorem parts_pattern_precedence (text ct num yr : List Char)
    (h1 : ct ≠ []) (h2 : num ≠ []) (h3 : yr ≠ []) :
    (∀ s e, patA text ct num yr = some (s, e) →
      search_case_by_parts text ct num yr = some (mkPartsMatch text s e)) ∧
    (patA text ct num yr = none →
      ∀ s e, patB text ct num yr = some (s, e) →
        search_case_by_parts text ct num yr = some (mkPartsMatch text s e)) ∧
    (patA text ct num yr = none → patB text ct num yr = none →
      ∀ s e, patC text num yr = some (s, e) →
        search_case_by_parts text ct num yr = some (mkPartsMatch text s e)) := by
  have hg : ¬(ct = [] ∨ num = [] ∨ yr = []) := by
    rintro (h | h | h)
    · exact h1 h
    · exact h2 h
    · exact h3 h
  refine ⟨?_, ?_, ?_⟩
  · intro s e hA
    unfold search_case_by_parts
    rw [if_neg hg, hA]
  · intro hA s e hB
    unfold search_case_by_parts
    rw [if_neg hg, hA, hB]
  · intro hA hB s e hC
    unfold search_case_by_parts
    rw [if_neg hg, hA, hB, hC]

set_option maxRecDepth 40000 in
/-- C4 witness: on `tCScenario` patterns (a) and (b) miss, (c) hits at
span (5, 13), and the matcher returns the (c) window with `serial`
absent; on `tACScenario` both (a) (span (0, 11)) and (c) (span
(311, 319)) match and the matcher returns the (a)-derived window, which
differs from the (c)-derived one. -/
theorem parts_pattern_precedence_witness :
    ("CC".toList ≠ ([] : List Char)) ∧
    patA tCScenario "CC".toList "123".toList "2023".toList = none ∧
    patB tCScenario "CC".toList "123".toList "2023".toList = none ∧
    patC tCScenario "123".toList "2023".toList = some (5, 13) ∧
    search_case_by_parts tCScenario "CC".toList "123".toList "2023".toList =
      some (mkPartsMatch tCScenario 5 13) ∧
    (mkPartsMatch tCScenario 5 13).serial = none ∧
    patA tACScenario "CC".toList "123".toList "2023".toList = some (0, 11) ∧
    (patC tACScenario "123".toList "2023".toList).isSome = true ∧
    search_case_by_parts tACScenario "CC".toList "123".toList "2023".toList =
      some (mkPartsMatch tACScenario 0 11) ∧
    mkPartsMatch tACScenario 0 11 ≠ mkPartsMatch tACScenario 311 319 := by
  refine ⟨by decide, by decide, by decide, by decide, ?_, by decide,
          by decide, by decide, ?_, by decide⟩
  · exact (parts_pattern_precedence tCScenario _ _ _ (by decide) (by decide)
      (by decide)).2.2 (by decide) (by decide) 5 13 (by decide)
  · exact (parts_pattern_precedence tACScenario _ _ _ (by decide) (by decide)
      (by decide)).1 0 11 (by decide)

/-- C5: every run persists exactly one outcome document, at the end,
whatever the environment (missing key, API failure, matcher exception,
no match, emission failure): the save list of the run is the single
`save_json` call at line 323. -/
theorem outcome_saved_exactly_once (env : Env) :
    (main env).saves = [(env.outPath, (main env).output)] ∧
    (main env).saves.length = 1 :=
  ⟨rfl, rfl⟩

/-- C6 counterexample: in `envC6` the structured attempt ran and did not
match, the rendered provider ran and produced the matching content, yet
`method` is still `'api'`, not `'selenium_interactive'` — line 287 keeps
an already-set `method`. -/
theorem method_field_counterexample :
    (main envC6).renderedInvoked = true ∧
    (main envC6).output.matches' ≠ [] ∧
    (main envC6).output.method = some methodApi ∧
    ¬(main envC6).output.method = some methodSelenium := by
  decide

/-- C6 amended: `method` reflects the FIRST strategy that attempted
acquisition, not the last one that produced content: it is `'api'`
whenever the API call was attempted (requested with a truthy key),
regardless of any later fallback, and `'selenium_interactive'`
otherwise. -/
theorem method_field_reflects_first_attempt (env : Env) :
    (main env).output.method =
      some (if apiAttempted env then methodApi else methodSelenium) := by
  have hr := renderedPhase_method env (structuredPhase env (initOutcome env))
  have hs := structuredPhase_method env (initOutcome env)
  show (renderedPhase env (structuredPhase env (initOutcome env))).1.method = _
  rw [hr, hs]
  by_cases h : apiAttempted env = true
  · simp [h]
  · have h2 : apiAttempted env = false := by simpa using h
    have hf := structuredPhase_found_no_attempt env (initOutcome env) h2
    rw [hf]
    simp [h2, initOutcome]

/-- C7 counterexample: in `envC7` document emission failed (capture was
requested and produced no data), the text was still matched, but no note
was appended to the outcome — the failure is only printed at line 158,
never recorded in `notes`. -/
theorem pdf_failure_note_counterexample :
    envC7.downloadPdf = true ∧
    (selenium_fetch_cause_list_interactive envC7).pdfB64 = none ∧
    (main envC7).output.found = true ∧
    (main envC7).output.notes = [] := by
  decide

/-- C7 amended: when document emission fails, the run does not fail and
the text-extraction result is still used, but the failure leaves no
trace in the persisted outcome: the run is indistinguishable from one
with document capture disabled. -/
theorem pdf_failure_leaves_outcome_unchanged (env : Env)
    (h : env.pdfData = none) :
    main env = main { env with downloadPdf := false } := by
  have hsel : selenium_fetch_cause_list_interactive env =
      selenium_fetch_cause_list_interactive { env with downloadPdf := false } := by
    unfold selenium_fetch_cause_list_interactive
    simp [h]
  unfold main renderedPhase
  rw [hsel]
  rfl

/-- C7 amended witness: the equivalence at the concrete scenario. -/
theorem pdf_failure_leaves_outcome_unchanged_witness :
    envC7.pdfData = none ∧
    main envC7 = main { envC7 with downloadPdf := false } :=
  ⟨rfl, pdf_failure_leaves_outcome_unchanged envC7 rfl⟩

/-- C8: both matchers are total functions of their string inputs
(matching is literal, the query pieces being escaped), and `none` is the
only negative signal: the CNR matcher succeeds exactly when the query is
non-empty and some line of the text literally contains it, and the parts
matcher succeeds exactly when all three parts are non-empty and one of
the three patterns matches. -/
theorem matchers_total_characterization (text cnr ct num yr : List Char) :
    ((search_case_in_text_by_cnr text cnr).isSome = true ↔
      cnr ≠ [] ∧ ∃ l ∈ splitlines text, containsSub l cnr = true) ∧
    ((search_case_by_parts text ct num yr).isSome = true ↔
      (ct ≠ [] ∧ num ≠ [] ∧ yr ≠ []) ∧
      ((patA text ct num yr).isSome = true ∨
       (patB text ct num yr).isSome = true ∨
       (patC text num yr).isSome = true)) := by
  constructor
  · constructor
    · intro h
      unfold search_case_in_text_by_cnr at h
      by_cases hne : cnr = []
      · rw [if_pos hne] at h
        simp at h
      · rw [if_neg hne] at h
        by_cases hf : (findSub text cnr).isSome = true
        · rw [if_pos hf] at h
          rcases hfml : firstMatchLine cnr (splitlines text) with _ | i
          · simp only [hfml] at h
            simp at h
          · exact ⟨hne, (firstMatchLine_isSome_iff _ _).mp (by simp [hfml])⟩
        · rw [if_neg hf] at h
          simp at h
    · rintro ⟨hne, l, hl, hc⟩
      have hsome : (findSub text cnr).isSome = true :=
        (findSub_isSome_iff _ _).mpr
          (infixOf_trans ((containsSub_iff _ _).mp hc)
            (splitlines_mem_infixOf text l hl))
      have hfml : (firstMatchLine cnr (splitlines text)).isSome = true :=
        (firstMatchLine_isSome_iff _ _).mpr ⟨l, hl, hc⟩
      unfold search_case_in_text_by_cnr
      rw [if_neg hne, if_pos hsome]
      rcases hx : firstMatchLine cnr (splitlines text) with _ | i
      · rw [hx] at hfml
        simp at hfml
      · simp [hx]
  · unfold search_case_by_parts
    by_cases hg : ct = [] ∨ num = [] ∨ yr = []
    · rw [if_pos hg]
      simp only [Option.isSome_none, Bool.false_eq_true, false_iff]
      rintro ⟨⟨h1, h2, h3⟩, -⟩
      rcases hg with h | h | h
      · exact h1 h
      · exact h2 h
      · exact h3 h
    · rw [if_neg hg]
      push_neg at hg
      obtain ⟨h1, h2, h3⟩ := hg
      rcases hA : patA text ct num yr with _ | ⟨s, e⟩
      · rcases hB : patB text ct num yr with _ | ⟨s, e⟩
        · rcases hC : patC text num yr with _ | ⟨s, e⟩
          · simp [hA, hB, hC, h1, h2, h3]
          · simp [hA, hB, hC, h1, h2, h3]
        · simp [hA, hB, h1, h2, h3]
      · simp [hA, h1, h2, h3]

/-- C9: an empty CNR is rejected up front — the matcher returns absent
on every text, even though the empty string is a substring of every
text (and so of every line). -/
theorem empty_cnr_returns_none (text : List Char) :
    search_case_in_text_by_cnr text [] = none ∧
    containsSub text [] = true := by
  constructor
  · simp [search_case_in_text_by_cnr]
  · cases text <;> simp [containsSub, findSub, isPrefixChars]

/-- C10: `search_case_by_parts` returns absent when any of the three
query parts is empty, before any pattern is tried. -/
theorem empty_part_returns_none (text ct num yr : List Char)
    (h : ct = [] ∨ num = [] ∨ yr = []) :
    search_case_by_parts text ct num yr = none := by
  unfold search_case_by_parts
  rw [if_pos h]

/-- C10 witness: with an empty `case_type` the matcher rejects
`tCScenario` even though pattern (c) alone would match it. -/
theorem empty_part_returns_none_witness :
    (("".toList : List Char) = [] ∨ "123".toList = ([] : List Char) ∨
      "2023".toList = ([] : List Char)) ∧
    search_case_by_parts tCScenario "".toList "123".toList "2023".toList
      = none ∧
    (patC tCScenario "123".toList "2023".toList).isSome = true :=
  ⟨Or.inl (by decide),
   empty_part_returns_none tCScenario _ _ _ (Or.inl (by decide)),
   by decide⟩

end Scrape
